import Mathlib

/-!
Shallow embedding of the Station Timetable Aggregation & Cache core of
`src/app.rs` (the `Enter`-key handler of `run_app`, lines 263-423, and the
data types it manipulates).

Modelling conventions:
* `HashSet<String>` (`unique_lines`) is modelled as an insertion-ordered
  duplicate-free `List String` (`dedupFirst`); all set-level claims are stated
  via membership, so the representative order is immaterial.
* `HashMap` / `BTreeMap` fields are modelled as association lists where
  `mapInsert` prepends (newest binding wins on `mapLookup`), which matches the
  observable lookup/contains behaviour of the Rust maps.
* `f64` coordinates are modelled as `ℚ`: every value produced by the layout
  loop is a multiple of 1/2 far below 2^53, where IEEE double arithmetic on
  `12.5`, `3.5`, ... is exact.
* Each network call is a field of an `Api` environment returning `Option`;
  `none` stands for a transport/parse failure, and every `.unwrap()` of the
  source on such a failure (or on a `None` option / out-of-bounds index) is a
  `Panic` value aborting the handler, since the source aborts the process.
-/

deriving instance DecidableEq for Except

attribute [local semireducible] Rat.add Rat.mul Rat.inv Rat.ofScientific

namespace TTFL

structure StopPoint where
  zone : String
  id : String
  name : String
deriving DecidableEq

def StopPoint.default : StopPoint := ⟨"", "", ""⟩

structure Arrival where
  stationName : String
  lineId : String
  platformName : String
  timeToStation : Int
  currentLocation : String
  expectedArrival : String
  towards : String
deriving DecidableEq

structure Route where
  name : String
  naptanIds : List String
deriving DecidableEq

structure RouteResponse where
  lineId : String
  direction : String
  orderedLineRoutes : List Route
deriving DecidableEq

structure StopPointResponse where
  query : String
  total : Int
  «matches» : List (Option StopPoint)
deriving DecidableEq

structure Station where
  naptan_id : String
deriving DecidableEq

inductive Color where
  | LightGreen
  | LightYellow
deriving DecidableEq

structure Rectangle where
  x : ℚ
  y : ℚ
  width : ℚ
  height : ℚ
  color : Color
deriving DecidableEq

structure StationNode where
  naptan_id : String
  rect : Rectangle
deriving DecidableEq

structure LiveMap where
  stops_0 : List Station
  stops_1 : List Station
  trains_currently_at : List String
deriving DecidableEq

structure StopTimetable where
  stop_point : Option StopPoint
  unique_lines : List String
  unique_platforms : List (String × List String)
  arrivals : List Arrival
  live_maps : List (String × LiveMap)
  station_nodes : List (String × List (List StationNode))
deriving DecidableEq

def StopTimetable.default : StopTimetable := ⟨none, [], [], [], [], []⟩

/-- Association-list model of the map types (`BTreeMap`/`HashMap`): lookup. -/
def mapLookup {α : Type} : List (String × α) → String → Option α
  | [], _ => none
  | (k', v) :: rest, k => if k = k' then some v else mapLookup rest k

/-- `contains_key`. -/
def mapContains {α : Type} (m : List (String × α)) (k : String) : Bool :=
  (mapLookup m k).isSome

/-- `insert` (replaces any previous binding as far as `mapLookup` observes). -/
def mapInsert {α : Type} (m : List (String × α)) (k : String) (v : α) :
    List (String × α) :=
  (k, v) :: m

/-- `entry(k).or_insert(v)`: inserts only when the key is absent. -/
def mapOrInsert {α : Type} (m : List (String × α)) (k : String) (v : α) :
    List (String × α) :=
  if mapContains m k then m else mapInsert m k v

/-- Insertion of one key into the sorted duplicate-free key list of a
`BTreeMap<String, _>`. -/
def insortU (p : String) : List String → List String
  | [] => [p]
  | q :: rest =>
    if p < q then p :: q :: rest
    else if p = q then q :: rest
    else q :: insortU p rest

/-- The sorted key list of the `BTreeMap` built by inserting every element of
`xs` (the platform dedup/sort of `run_app` lines 343-350). -/
def btreeKeys (xs : List String) : List String :=
  xs.foldl (fun acc p => insortU p acc) []

/-- One `HashSet::insert`, modelled on an insertion-ordered dedup list. -/
def insUnique (l : List String) (x : String) : List String :=
  if x ∈ l then l else l ++ [x]

/-- The contents of the `HashSet` after inserting every element of `xs`
(lines 329-331), as an insertion-ordered duplicate-free list. -/
def dedupFirst (xs : List String) : List String :=
  xs.foldl insUnique []

/-- The layout loop of lines 379-419: walk the stop list with a cursor starting
at `x`, step 3.5, fixed y/width/height, highlight colour when the stop is the
resolved one. -/
def projectFrom (x : ℚ) (cur : String) : List Station → List StationNode
  | [] => []
  | s :: rest =>
    { naptan_id := s.naptan_id,
      rect :=
        { x := x, y := 50, width := 2, height := 10,
          color := if s.naptan_id = cur then Color.LightGreen
                   else Color.LightYellow } }
      :: projectFrom (x + 3.5) cur rest

/-- The Layout Projector: one ordered node list for one direction. -/
def project (stops : List Station) (cur : String) : List StationNode :=
  projectFrom 12.5 cur stops

/-- The external Transit API; `none` models a transport/parse failure. -/
structure Api where
  searchStop : String → Option StopPointResponse
  getArrivals : String → Option (List Arrival)
  getRoute : String → Option RouteResponse

/-- A process abort: `.unwrap()` on a failed fetch, `Option::unwrap` on
`None`, or an out-of-bounds index. -/
inductive Panic where
  | fetchFailed
  | noneUnwrapped
  | indexOutOfBounds
deriving DecidableEq

/-- The Station Resolver (lines 315-318): zero matches yield the default
empty `StopPoint`, otherwise the first element of `matches` is taken as-is
(it is itself an `Option`). -/
def resolveStop (resp : StopPointResponse) : Option StopPoint :=
  match resp.matches with
  | [] => some StopPoint.default
  | m :: _ => m

/-- Lines 335-350: platform names of the arrivals on one line, deduplicated
and sorted through a `BTreeMap`. -/
def platformsForLine (arrivals : List Arrival) (line : String) : List String :=
  btreeKeys ((arrivals.filter (fun a => a.lineId == line)).map
    (fun a => a.platformName))

/-- The body of the per-line loop of the cache-miss path (lines 334-421) for
one `u_line`. -/
def stepLine (api : Api) (sp : StopPoint) (tt : StopTimetable)
    (u_line : String) : Except Panic StopTimetable :=
  let platforms := platformsForLine tt.arrivals u_line
  let tt1 := { tt with
    unique_platforms := mapInsert tt.unique_platforms u_line platforms }
  match api.getRoute u_line with
  | none => Except.error Panic.fetchFailed
  | some res =>
    match res.orderedLineRoutes with
    | r0 :: r1 :: _ =>
      let lm : LiveMap :=
        ⟨r0.naptanIds.map Station.mk, r1.naptanIds.map Station.mk, []⟩
      let tt2 := { tt1 with live_maps := mapInsert tt1.live_maps u_line lm }
      let rects_0 := project lm.stops_0 sp.id
      let rects_1 := project lm.stops_1 sp.id
      Except.ok { tt2 with
        station_nodes := mapInsert tt2.station_nodes u_line [rects_0, rects_1] }
    | _ => Except.error Panic.indexOutOfBounds

/-- The whole per-line loop, sequential over the iteration order of
`unique_lines`. -/
def processLines (api : Api) (sp : StopPoint) :
    StopTimetable → List String → Except Panic StopTimetable
  | tt, [] => Except.ok tt
  | tt, u :: rest =>
    match stepLine api sp tt u with
    | Except.error e => Except.error e
    | Except.ok tt' => processLines api sp tt' rest

/-- The application state touched by the Enter handler. -/
structure AppState where
  input : String
  this_station_name : String
  this_StopTimetable : StopTimetable
  stop_cache : List (String × StopTimetable)
deriving DecidableEq

def initState : AppState := ⟨"", "", StopTimetable.default, []⟩

/-- The `KeyCode::Enter` arm of `run_app` (lines 263-423). -/
def processEnter (api : Api) (s : AppState) : Except Panic AppState :=
  let name := s.input
  let tt0 := { s.this_StopTimetable with unique_lines := ([] : List String) }
  match mapLookup s.stop_cache name with
  | some cached =>
    let tt1 := { tt0 with
      stop_point := cached.stop_point,
      unique_lines := cached.unique_lines,
      unique_platforms := cached.unique_platforms,
      live_maps := cached.live_maps,
      station_nodes := cached.station_nodes }
    match tt1.stop_point with
    | none => Except.error Panic.noneUnwrapped
    | some sp =>
      match api.getArrivals sp.id with
      | none => Except.error Panic.fetchFailed
      | some arr =>
        let tt2 := { tt1 with arrivals := arr }
        let _dispatch : List String :=
          tt2.unique_lines.foldl
            (fun acc line =>
              acc ++ (arr.filter (fun a => a.lineId == line)).map
                (fun a => a.currentLocation)) []
        let cache1 := mapOrInsert s.stop_cache name tt2
        Except.ok { input := "", this_station_name := name,
                    this_StopTimetable := tt2, stop_cache := cache1 }
  | none =>
    match api.searchStop name with
    | none => Except.error Panic.fetchFailed
    | some resp =>
      match resolveStop resp with
      | none => Except.error Panic.noneUnwrapped
      | some sp =>
        match api.getArrivals sp.id with
        | none => Except.error Panic.fetchFailed
        | some arr =>
          let tt1 := { tt0 with
            stop_point := some sp,
            arrivals := arr,
            unique_lines := dedupFirst (arr.map (fun a => a.lineId)) }
          match processLines api sp tt1 tt1.unique_lines with
          | Except.error e => Except.error e
          | Except.ok tt2 =>
            Except.ok { input := "", this_station_name := name,
                        this_StopTimetable := tt2,
                        stop_cache := mapInsert s.stop_cache name tt2 }

/-- A session: a sequence of submitted station names, each with the state of
the external API at submission time. -/
def runSession : AppState → List (String × Api) → Except Panic AppState
  | s, [] => Except.ok s
  | s, (n, api) :: rest =>
    match processEnter api { s with input := n } with
    | Except.error e => Except.error e
    | Except.ok s' => runSession s' rest

/-! Concrete fixtures used by the witness and counterexample theorems. -/

def spX : StopPoint := ⟨"1", "sX", "X"⟩

def arrivalA : Arrival := ⟨"X", "l1", "P", 60, "loc", "t", "tw"⟩

def arrivalA2 : Arrival := ⟨"X", "l1", "P", 30, "loc2", "t2", "tw"⟩

def r0X : Route := ⟨"r0", ["sX", "s2"]⟩

def r1X : Route := ⟨"r1", ["s2", "sX"]⟩

def routeRespL1 : RouteResponse := ⟨"l1", "all", [r0X, r1X]⟩

/-- API state at a first submission of "X": one search match, one arrival on
line "l1", a two-direction route for "l1". -/
def api1 : Api :=
  ⟨fun q => if q = "X" then some ⟨"X", 1, [some spX]⟩ else none,
   fun i => if i = "sX" then some [arrivalA] else none,
   fun l => if l = "l1" then some routeRespL1 else none⟩

/-- Same API later in time: only the arrivals for `sX` have changed. -/
def api2 : Api :=
  { api1 with getArrivals := fun i => if i = "sX" then some [arrivalA2] else none }

def lmX : LiveMap := ⟨[⟨"sX"⟩, ⟨"s2"⟩], [⟨"s2"⟩, ⟨"sX"⟩], []⟩

def rects0X : List StationNode :=
  [⟨"sX", ⟨12.5, 50, 2, 10, Color.LightGreen⟩⟩,
   ⟨"s2", ⟨16, 50, 2, 10, Color.LightYellow⟩⟩]

def rects1X : List StationNode :=
  [⟨"s2", ⟨12.5, 50, 2, 10, Color.LightYellow⟩⟩,
   ⟨"sX", ⟨16, 50, 2, 10, Color.LightGreen⟩⟩]

/-- The timetable state right before the per-line loop of the api1 miss run. -/
def tt1X : StopTimetable := ⟨some spX, ["l1"], [], [arrivalA], [], []⟩

/-- The snapshot the api1 miss run builds and caches. -/
def tt2X : StopTimetable :=
  ⟨some spX, ["l1"], [("l1", ["P"])], [arrivalA],
   [("l1", lmX)], [("l1", [rects0X, rects1X])]⟩

def s1X : AppState := ⟨"", "X", tt2X, [("X", tt2X)]⟩

/-- The state right before submitting "X" for the first time. -/
def sInX : AppState := ⟨"X", "", StopTimetable.default, []⟩

/-- A state with "X" already cached, right before resubmitting "X". -/
def sHitX : AppState := ⟨"X", "", StopTimetable.default, [("X", tt2X)]⟩

/-- A route response with a single directional route (precondition
violation for the index-0/1 access). -/
def routeRespShort : RouteResponse := ⟨"l1", "all", [r0X]⟩

def apiBad : Api :=
  { api1 with
    getRoute := fun l => if l = "l1" then some routeRespShort else none }

/-- API state for a station whose search has zero matches and whose dependent
arrivals fetch (against the empty identifier) happens to succeed with an
empty list. -/
def apiZ : Api := ⟨fun q => some ⟨q, 0, []⟩, fun _ => some [], fun _ => none⟩

/-- The snapshot built around the sentinel empty stop point. -/
def ttEmptyStop : StopTimetable := ⟨some StopPoint.default, [], [], [], [], []⟩

/-- API state whose stop search returns a non-empty match list with a null
first element. -/
def apiNull : Api := ⟨fun q => some ⟨q, 1, [none]⟩, fun _ => none, fun _ => none⟩

/-- The state after the session that submits only "A" against `apiZ`. -/
def sErunZ : AppState := ⟨"", "A", ttEmptyStop, [("A", ttEmptyStop)]⟩

/-- API state for station "A" on line "la" (used for the cross-station
key-pollution counterexample). -/
def apiA : Api :=
  ⟨fun q => if q = "A" then some ⟨"A", 1, [some ⟨"1", "sA", "A"⟩]⟩ else none,
   fun i => if i = "sA" then some [⟨"A", "la", "pa", 60, "c", "t", "w"⟩] else none,
   fun l => if l = "la" then some ⟨"la", "all", [⟨"r0", ["sA"]⟩, ⟨"r1", ["sA"]⟩]⟩
            else none⟩

/-- API state for station "B" on line "lb". -/
def apiB : Api :=
  ⟨fun q => if q = "B" then some ⟨"B", 1, [some ⟨"2", "sB", "B"⟩]⟩ else none,
   fun i => if i = "sB" then some [⟨"B", "lb", "pb", 60, "c", "t", "w"⟩] else none,
   fun l => if l = "lb" then some ⟨"lb", "all", [⟨"r0", ["sB"]⟩, ⟨"r1", ["sB"]⟩]⟩
            else none⟩

/-! ### Association-list map lemmas -/

theorem mapLookup_insert {α : Type} (m : List (String × α)) (k l : String)
    (v : α) :
    mapLookup (mapInsert m k v) l = if l = k then some v else mapLookup m l :=
  rfl

theorem mapContains_insert {α : Type} (m : List (String × α)) (k l : String)
    (v : α) :
    mapContains (mapInsert m k v) l = true ↔
      l = k ∨ mapContains m l = true := by
  by_cases h : l = k <;> simp [mapContains, mapLookup_insert, h]

theorem mapContains_of_lookup {α : Type} {m : List (String × α)} {k : String}
    {v : α} (h : mapLookup m k = some v) : mapContains m k = true := by
  simp [mapContains, h]

/-! ### BTreeMap key-list lemmas (platform dedup/sort) -/

theorem mem_insortU (p x : String) :
    ∀ l : List String, x ∈ insortU p l ↔ x = p ∨ x ∈ l := by
  intro l
  induction l with
  | nil => simp [insortU]
  | cons q rest ih =>
    by_cases h1 : p < q
    · simp only [insortU, if_pos h1, List.mem_cons]
    · by_cases h2 : p = q
      · subst h2
        simp only [insortU, if_neg h1, if_true, List.mem_cons]
        tauto
      · simp only [insortU, if_neg h1, if_neg h2, List.mem_cons, ih]
        tauto

theorem sorted_insortU (p : String) :
    ∀ l : List String, l.Pairwise (· < ·) → (insortU p l).Pairwise (· < ·) := by
  intro l
  induction l with
  | nil => intro _; simp [insortU]
  | cons q rest ih =>
    intro hp
    rw [List.pairwise_cons] at hp
    obtain ⟨hq, hrest⟩ := hp
    by_cases h1 : p < q
    · simp only [insortU, if_pos h1]
      refine List.Pairwise.cons ?_ (List.Pairwise.cons hq hrest)
      intro b hb
      rcases List.mem_cons.mp hb with rfl | hb
      · exact h1
      · exact lt_trans h1 (hq b hb)
    · by_cases h2 : p = q
      · simp only [insortU, if_neg h1, if_pos h2]
        exact List.Pairwise.cons hq hrest
      · simp only [insortU, if_neg h1, if_neg h2]
        refine List.Pairwise.cons ?_ (ih hrest)
        intro b hb
        rcases (mem_insortU p b rest).mp hb with rfl | hb
        · exact lt_of_le_of_ne (not_lt.mp h1) (Ne.symm h2)
        · exact hq b hb

theorem mem_foldl_insortU (x : String) :
    ∀ xs acc : List String,
      x ∈ xs.foldl (fun a p => insortU p a) acc ↔ x ∈ acc ∨ x ∈ xs := by
  intro xs
  induction xs with
  | nil => simp
  | cons y ys ih =>
    intro acc
    simp only [List.foldl_cons, ih, mem_insortU, List.mem_cons]
    tauto

theorem mem_btreeKeys (x : String) (xs : List String) :
    x ∈ btreeKeys xs ↔ x ∈ xs := by
  simp [btreeKeys, mem_foldl_insortU]

theorem sorted_btreeKeys (xs : List String) :
    (btreeKeys xs).Pairwise (· < ·) := by
  have key : ∀ l acc : List String, acc.Pairwise (· < ·) →
      (l.foldl (fun a p => insortU p a) acc).Pairwise (· < ·) := by
    intro l
    induction l with
    | nil => intro acc h; exact h
    | cons y ys ih => intro acc h; exact ih _ (sorted_insortU y acc h)
  exact key xs [] List.Pairwise.nil

/-! ### HashSet (insertion-ordered dedup) lemmas -/

theorem mem_insUnique (x y : String) (l : List String) :
    x ∈ insUnique l y ↔ x ∈ l ∨ x = y := by
  unfold insUnique
  by_cases h : y ∈ l
  · simp only [if_pos h]
    constructor
    · exact Or.inl
    · rintro (hx | rfl)
      · exact hx
      · exact h
  · simp [if_neg h]

theorem mem_dedupFirst (x : String) (xs : List String) :
    x ∈ dedupFirst xs ↔ x ∈ xs := by
  have key : ∀ l acc : List String,
      x ∈ l.foldl insUnique acc ↔ x ∈ acc ∨ x ∈ l := by
    intro l
    induction l with
    | nil => simp
    | cons y ys ih =>
      intro acc
      simp only [List.foldl_cons, ih, mem_insUnique, List.mem_cons]
      tauto
  simp [dedupFirst, key]

/-! ### Platform grouping lemmas -/

theorem mem_platformsForLine (arrivals : List Arrival) (line p : String) :
    p ∈ platformsForLine arrivals line ↔
      ∃ a ∈ arrivals, a.lineId = line ∧ a.platformName = p := by
  simp only [platformsForLine, mem_btreeKeys, List.mem_map, List.mem_filter,
    beq_iff_eq]
  constructor
  · rintro ⟨a, ⟨ha, hl⟩, hp⟩
    exact ⟨a, ha, hl, hp⟩
  · rintro ⟨a, ha, hl, hp⟩
    exact ⟨a, ⟨ha, hl⟩, hp⟩

theorem sorted_platformsForLine (arrivals : List Arrival) (line : String) :
    (platformsForLine arrivals line).Pairwise (· < ·) :=
  sorted_btreeKeys _

/-! ### Layout Projector lemmas -/

theorem projectFrom_length (cur : String) :
    ∀ (stops : List Station) (x : ℚ),
      (projectFrom x cur stops).length = stops.length := by
  intro stops
  induction stops with
  | nil => intro x; rfl
  | cons s rest ih =>
    intro x
    simp [projectFrom, ih]

theorem project_length (stops : List Station) (cur : String) :
    (project stops cur).length = stops.length :=
  projectFrom_length cur stops 12.5

theorem projectFrom_getElem (cur : String) :
    ∀ (stops : List Station) (x : ℚ) (i : ℕ) (st : Station),
      stops[i]? = some st →
      (projectFrom x cur stops)[i]? = some
        ⟨st.naptan_id,
         ⟨x + 3.5 * (i : ℚ), 50, 2, 10,
          if st.naptan_id = cur then Color.LightGreen
          else Color.LightYellow⟩⟩ := by
  intro stops
  induction stops with
  | nil =>
    intro x i st h
    simp at h
  | cons s rest ih =>
    intro x i st h
    cases i with
    | zero =>
      simp only [List.getElem?_cons_zero, Option.some.injEq] at h
      subst h
      simp [projectFrom]
    | succ n =>
      simp only [List.getElem?_cons_succ] at h
      have hrec := ih (x + 3.5) n st h
      simp only [projectFrom, List.getElem?_cons_succ, hrec, Option.some.injEq,
        StationNode.mk.injEq, Rectangle.mk.injEq, and_true, true_and]
      push_cast
      ring

theorem project_getElem (stops : List Station) (cur : String) (i : ℕ)
    (st : Station) (h : stops[i]? = some st) :
    (project stops cur)[i]? = some
      ⟨st.naptan_id,
       ⟨12.5 + 3.5 * (i : ℚ), 50, 2, 10,
        if st.naptan_id = cur then Color.LightGreen
        else Color.LightYellow⟩⟩ :=
  projectFrom_getElem cur stops 12.5 i st h

/-! ### Per-line loop lemmas -/

/-- What the result of `stepLine` is: the route fetch succeeded with at least
two directional routes, and the three maps got one entry each for `u_line`. -/
theorem stepLine_ok_iff (api : Api) (sp : StopPoint) (tt : StopTimetable)
    (u_line : String) (tt' : StopTimetable) :
    stepLine api sp tt u_line = Except.ok tt' ↔
      ∃ res r0 r1 rs,
        api.getRoute u_line = some res ∧
        res.orderedLineRoutes = r0 :: r1 :: rs ∧
        tt' = { tt with
          unique_platforms := mapInsert tt.unique_platforms u_line
            (platformsForLine tt.arrivals u_line),
          live_maps := mapInsert tt.live_maps u_line
            ⟨r0.naptanIds.map Station.mk, r1.naptanIds.map Station.mk, []⟩,
          station_nodes := mapInsert tt.station_nodes u_line
            [project (r0.naptanIds.map Station.mk) sp.id,
             project (r1.naptanIds.map Station.mk) sp.id] } := by
  constructor
  · intro h
    rcases hr : api.getRoute u_line with _ | res
    · simp [stepLine, hr] at h
    · simp only [stepLine, hr] at h
      rcases hlist : res.orderedLineRoutes with _ | ⟨r0, _ | ⟨r1, rs⟩⟩ <;>
        rw [hlist] at h
      · simp at h
      · simp at h
      · simp only [Except.ok.injEq] at h
        exact ⟨res, r0, r1, rs, rfl, hlist, h.symm⟩
  · rintro ⟨res, r0, r1, rs, hr, hlist, rfl⟩
    simp [stepLine, hr, hlist]

/-- `stepLine` fails exactly when the route fetch fails or returns fewer than
two directional routes. -/
theorem stepLine_short_routes (api : Api) (sp : StopPoint)
    (tt : StopTimetable) (u_line : String) (res : RouteResponse)
    (hr : api.getRoute u_line = some res)
    (hshort : res.orderedLineRoutes.length < 2) :
    stepLine api sp tt u_line = Except.error Panic.indexOutOfBounds := by
  rcases hlist : res.orderedLineRoutes with _ | ⟨r0, _ | ⟨r1, rs⟩⟩
  · simp [stepLine, hr, hlist]
  · simp [stepLine, hr, hlist]
  · rw [hlist] at hshort
    simp at hshort
    omega

theorem processLines_fields (api : Api) (sp : StopPoint) :
    ∀ (ls : List String) (tt tt' : StopTimetable),
      processLines api sp tt ls = Except.ok tt' →
      tt'.arrivals = tt.arrivals ∧ tt'.unique_lines = tt.unique_lines ∧
        tt'.stop_point = tt.stop_point := by
  intro ls
  induction ls with
  | nil =>
    intro tt tt' h
    simp only [processLines, Except.ok.injEq] at h
    subst h
    exact ⟨rfl, rfl, rfl⟩
  | cons u rest ih =>
    intro tt tt' h
    rcases hs : stepLine api sp tt u with e | tt1 <;>
      simp only [processLines, hs] at h
    · exact Except.noConfusion h
    · obtain ⟨res, r0, r1, rs, _, _, rfl⟩ :=
        (stepLine_ok_iff api sp tt u tt1).mp hs
      have h2 := ih _ tt' h
      simpa using h2

theorem processLines_platforms_not_mem (api : Api) (sp : StopPoint) :
    ∀ (ls : List String) (tt tt' : StopTimetable) (l : String),
      processLines api sp tt ls = Except.ok tt' → l ∉ ls →
      mapLookup tt'.unique_platforms l = mapLookup tt.unique_platforms l := by
  intro ls
  induction ls with
  | nil =>
    intro tt tt' l h _
    simp only [processLines, Except.ok.injEq] at h
    subst h
    rfl
  | cons u rest ih =>
    intro tt tt' l h hl
    rcases hs : stepLine api sp tt u with e | tt1 <;>
      simp only [processLines, hs] at h
    · exact Except.noConfusion h
    · obtain ⟨res, r0, r1, rs, _, _, rfl⟩ :=
        (stepLine_ok_iff api sp tt u tt1).mp hs
      have h1 := ih _ tt' l h (fun hmem => hl (List.mem_cons_of_mem u hmem))
      rw [h1, mapLookup_insert, if_neg]
      intro hlu
      exact hl (hlu ▸ List.mem_cons_self u rest)

theorem processLines_platforms_mem (api : Api) (sp : StopPoint) :
    ∀ (ls : List String) (tt tt' : StopTimetable) (l : String),
      processLines api sp tt ls = Except.ok tt' → l ∈ ls →
      mapLookup tt'.unique_platforms l =
        some (platformsForLine tt.arrivals l) := by
  intro ls
  induction ls with
  | nil =>
    intro tt tt' l _ hl
    simp at hl
  | cons u rest ih =>
    intro tt tt' l h hl
    rcases hs : stepLine api sp tt u with e | tt1 <;>
      simp only [processLines, hs] at h
    · exact Except.noConfusion h
    · obtain ⟨res, r0, r1, rs, _, _, rfl⟩ :=
        (stepLine_ok_iff api sp tt u tt1).mp hs
      rcases List.mem_cons.mp hl with rfl | hmem
      · by_cases hrest : l ∈ rest
        · have h2 := ih _ tt' l h hrest
          simpa using h2
        · have h1 := processLines_platforms_not_mem api sp rest _ tt' l h hrest
          rw [h1]
          simp [mapLookup_insert]
      · have h2 := ih _ tt' l h hmem
        simpa using h2

theorem processLines_platform_keys (api : Api) (sp : StopPoint) :
    ∀ (ls : List String) (tt tt' : StopTimetable) (k : String),
      processLines api sp tt ls = Except.ok tt' →
      mapContains tt'.unique_platforms k = true →
      mapContains tt.unique_platforms k = true ∨ k ∈ ls := by
  intro ls
  induction ls with
  | nil =>
    intro tt tt' k h hk
    simp only [processLines, Except.ok.injEq] at h
    subst h
    exact Or.inl hk
  | cons u rest ih =>
    intro tt tt' k h hk
    rcases hs : stepLine api sp tt u with e | tt1 <;>
      simp only [processLines, hs] at h
    · exact Except.noConfusion h
    · obtain ⟨res, r0, r1, rs, _, _, rfl⟩ :=
        (stepLine_ok_iff api sp tt u tt1).mp hs
      rcases ih _ tt' k h hk with hk1 | hk1
      · rcases (mapContains_insert _ u k _).mp (by simpa using hk1) with h3 | hk2
        · exact Or.inr (by rw [h3]; exact List.mem_cons_self u rest)
        · exact Or.inl hk2
      · exact Or.inr (List.mem_cons_of_mem u hk1)

theorem processLines_livemap_keys (api : Api) (sp : StopPoint) :
    ∀ (ls : List String) (tt tt' : StopTimetable) (k : String),
      processLines api sp tt ls = Except.ok tt' →
      mapContains tt'.live_maps k = true →
      mapContains tt.live_maps k = true ∨ k ∈ ls := by
  intro ls
  induction ls with
  | nil =>
    intro tt tt' k h hk
    simp only [processLines, Except.ok.injEq] at h
    subst h
    exact Or.inl hk
  | cons u rest ih =>
    intro tt tt' k h hk
    rcases hs : stepLine api sp tt u with e | tt1 <;>
      simp only [processLines, hs] at h
    · exact Except.noConfusion h
    · obtain ⟨res, r0, r1, rs, _, _, rfl⟩ :=
        (stepLine_ok_iff api sp tt u tt1).mp hs
      rcases ih _ tt' k h hk with hk1 | hk1
      · rcases (mapContains_insert _ u k _).mp (by simpa using hk1) with h3 | hk2
        · exact Or.inr (by rw [h3]; exact List.mem_cons_self u rest)
        · exact Or.inl hk2
      · exact Or.inr (List.mem_cons_of_mem u hk1)

/-! ### Enter-handler inversion lemmas -/

/-- Inversion of a successful cache-miss run of the Enter handler. -/
theorem processEnter_miss_ok (api : Api) (s s' : AppState)
    (hmiss : mapLookup s.stop_cache s.input = none)
    (h : processEnter api s = Except.ok s') :
    ∃ resp sp arr tt2,
      api.searchStop s.input = some resp ∧
      resolveStop resp = some sp ∧
      api.getArrivals sp.id = some arr ∧
      processLines api sp
        { s.this_StopTimetable with
          stop_point := some sp, arrivals := arr,
          unique_lines := dedupFirst (arr.map (fun a => a.lineId)) }
        (dedupFirst (arr.map (fun a => a.lineId))) = Except.ok tt2 ∧
      s' = { input := "", this_station_name := s.input,
             this_StopTimetable := tt2,
             stop_cache := mapInsert s.stop_cache s.input tt2 } := by
  simp only [processEnter, hmiss] at h
  rcases hsr : api.searchStop s.input with _ | resp
  · simp only [hsr] at h
    exact Except.noConfusion h
  · simp only [hsr] at h
    rcases hres : resolveStop resp with _ | sp
    · simp only [hres] at h
      exact Except.noConfusion h
    · simp only [hres] at h
      rcases harr : api.getArrivals sp.id with _ | arr
      · simp only [harr] at h
        exact Except.noConfusion h
      · simp only [harr] at h
        rcases hpl : processLines api sp
            { stop_point := some sp,
              unique_lines := dedupFirst (arr.map (fun a => a.lineId)),
              unique_platforms := s.this_StopTimetable.unique_platforms,
              arrivals := arr,
              live_maps := s.this_StopTimetable.live_maps,
              station_nodes := s.this_StopTimetable.station_nodes }
            (dedupFirst (arr.map (fun a => a.lineId))) with e | tt2
        · simp only [hpl] at h
          exact Except.noConfusion h
        · simp only [hpl, Except.ok.injEq] at h
          exact ⟨resp, sp, arr, tt2, rfl, hres, harr, hpl, h.symm⟩

/-- The cache-hit path: the returned snapshot is the cached one with only
`arrivals` replaced by the fresh fetch for the cached stop id, and the cache
itself is left unchanged (`entry().or_insert()` is a no-op on a hit). -/
theorem processEnter_hit_eq (api : Api) (s : AppState)
    (cached : StopTimetable) (sp : StopPoint) (arr : List Arrival)
    (hhit : mapLookup s.stop_cache s.input = some cached)
    (hsp : cached.stop_point = some sp)
    (harr : api.getArrivals sp.id = some arr) :
    processEnter api s = Except.ok
      { input := "", this_station_name := s.input,
        this_StopTimetable := { cached with arrivals := arr },
        stop_cache := s.stop_cache } := by
  simp only [processEnter, hhit, hsp, harr, mapOrInsert,
    mapContains_of_lookup hhit, if_true]

/-- Inversion of a successful cache-hit run. -/
theorem processEnter_hit_ok_inv (api : Api) (s s' : AppState)
    (cached : StopTimetable)
    (hhit : mapLookup s.stop_cache s.input = some cached)
    (h : processEnter api s = Except.ok s') :
    ∃ sp arr, cached.stop_point = some sp ∧
      api.getArrivals sp.id = some arr ∧
      s' = { input := "", this_station_name := s.input,
             this_StopTimetable := { cached with arrivals := arr },
             stop_cache := s.stop_cache } := by
  rcases hsp : cached.stop_point with _ | sp
  · simp only [processEnter, hhit, hsp] at h
    exact Except.noConfusion h
  rcases harr : api.getArrivals sp.id with _ | arr
  · simp only [processEnter, hhit, hsp, harr] at h
    exact Except.noConfusion h
  have heq := processEnter_hit_eq api s cached sp arr hhit hsp harr
  rw [heq] at h
  simp only [Except.ok.injEq] at h
  rw [hsp] at h
  exact ⟨sp, arr, rfl, harr, h.symm⟩

/-- A successful Enter run makes the submitted name a cache key and adds no
other key. -/
theorem processEnter_contains (api : Api) (s s' : AppState)
    (h : processEnter api s = Except.ok s') (n : String) :
    mapContains s'.stop_cache n = true ↔
      (mapContains s.stop_cache n = true ∨ n = s.input) := by
  rcases hc : mapLookup s.stop_cache s.input with _ | cached
  · obtain ⟨resp, sp, arr, tt2, _, _, _, _, rfl⟩ :=
      processEnter_miss_ok api s s' hc h
    simp only [mapContains_insert]
    tauto
  · obtain ⟨sp, arr, _, _, rfl⟩ := processEnter_hit_ok_inv api s s' cached hc h
    constructor
    · exact Or.inl
    · rintro (hn | rfl)
      · exact hn
      · exact mapContains_of_lookup hc

/-- Cache keys after a fully successful session are exactly the submitted
names (plus whatever was cached before). -/
theorem runSession_contains :
    ∀ (steps : List (String × Api)) (s s' : AppState),
      runSession s steps = Except.ok s' → ∀ n,
      mapContains s'.stop_cache n = true ↔
        (mapContains s.stop_cache n = true ∨ n ∈ steps.map Prod.fst) := by
  intro steps
  induction steps with
  | nil =>
    intro s s' h n
    simp only [runSession, Except.ok.injEq] at h
    subst h
    simp
  | cons p rest ih =>
    obtain ⟨name, api⟩ := p
    intro s s' h n
    rcases hp : processEnter api { s with input := name } with e | s1 <;>
      simp only [runSession, hp] at h
    · exact Except.noConfusion h
    · have h1 := processEnter_contains api { s with input := name } s1 hp n
      have h2 := ih s1 s' h n
      simp only [List.map_cons, List.mem_cons]
      rw [h2, h1]
      simp only [AppState.mk.injEq]
      tauto

/-! ### Claim theorems -/

/-- C5: for every stop-search response, zero matches yield the default empty
`StopPoint` (id="", name="", zone="") rather than a failure, and one or more
matches deterministically yield the first match in upstream order. -/
theorem C5_resolver_policy (resp : StopPointResponse) :
    (resp.matches = [] → resolveStop resp = some ⟨"", "", ""⟩) ∧
    (∀ m rest, resp.matches = m :: rest → resolveStop resp = m) := by
  constructor
  · intro hm
    simp [resolveStop, hm, StopPoint.default]
  · intro m rest hm
    simp [resolveStop, hm]

/-- C5 witness: the resolver policy evaluated on a zero-match response and on
a two-match response. -/
theorem C5_resolver_policy_witness :
    resolveStop ⟨"q", 0, []⟩ = some ⟨"", "", ""⟩ ∧
    resolveStop ⟨"q", 2, [some spX, none]⟩ = some spX :=
  ⟨(C5_resolver_policy ⟨"q", 0, []⟩).1 rfl,
   (C5_resolver_policy ⟨"q", 2, [some spX, none]⟩).2 (some spX) [none] rfl⟩

/-- C7: the per-line aggregation takes the two directional routes by
positional index 0 and 1; with fewer than two routes it fails (the whole
per-line loop aborts with an index error, nothing is defaulted), and with at
least two routes the indexing succeeds and uses exactly routes 0 and 1. -/
theorem C7_two_routes_required (api : Api) (sp : StopPoint)
    (tt : StopTimetable) (u : String) (res : RouteResponse)
    (hroute : api.getRoute u = some res) :
    (res.orderedLineRoutes.length < 2 →
      ∀ rest, processLines api sp tt (u :: rest) =
        Except.error Panic.indexOutOfBounds) ∧
    (∀ r0 r1 rs, res.orderedLineRoutes = r0 :: r1 :: rs →
      ∃ tt', stepLine api sp tt u = Except.ok tt' ∧
        mapLookup tt'.live_maps u =
          some ⟨r0.naptanIds.map Station.mk, r1.naptanIds.map Station.mk, []⟩) := by
  constructor
  · intro hshort rest
    have hs := stepLine_short_routes api sp tt u res hroute hshort
    simp [processLines, hs]
  · intro r0 r1 rs hr
    refine ⟨_, (stepLine_ok_iff api sp tt u _).mpr
      ⟨res, r0, r1, rs, hroute, hr, rfl⟩, ?_⟩
    simp [mapLookup_insert]

/-- C7 witness: a two-route response succeeds using routes 0 and 1; a
one-route response makes the aggregation fail with the index error. -/
theorem C7_two_routes_required_witness :
    (api1.getRoute "l1" = some routeRespL1 ∧
      ∃ tt', stepLine api1 spX tt1X "l1" = Except.ok tt' ∧
        mapLookup tt'.live_maps "l1" =
          some ⟨r0X.naptanIds.map Station.mk, r1X.naptanIds.map Station.mk, []⟩) ∧
    (apiBad.getRoute "l1" = some routeRespShort ∧
      processLines apiBad spX tt1X ["l1"] =
        Except.error Panic.indexOutOfBounds) :=
  ⟨⟨by decide,
    (C7_two_routes_required api1 spX tt1X "l1" routeRespL1 (by decide)).2
      r0X r1X [] rfl⟩,
   ⟨by decide,
    (C7_two_routes_required apiBad spX tt1X "l1" routeRespShort (by decide)).1
      (by decide) []⟩⟩

/-- C10: there is a stop-search response with a non-empty match list whose
first element is null for which the resolver yields no stop point, and the
following arrivals fetch unwraps that absent stop point, so the Enter run
aborts with a panic instead of returning or caching any snapshot. -/
theorem C10_null_first_match_aborts :
    (apiNull.searchStop "N").map resolveStop = some none ∧
    processEnter apiNull { initState with input := "N" } =
      Except.error Panic.noneUnwrapped :=
  ⟨by decide, by decide⟩

/-- C3 (code evaluated at the failing input): submitting "X" twice, with the
upstream arrivals changed in between, leaves the cached entry's arrivals at
the first fetch (`entry().or_insert()` never updates an existing entry)
while only the displayed snapshot carries the fresh arrivals. -/
theorem C3_cached_entry_not_refreshed :
    ((runSession initState [("X", api1), ("X", api2)]).toOption.map
      (fun s2 => ((mapLookup s2.stop_cache "X").map StopTimetable.arrivals,
                  s2.this_StopTimetable.arrivals)))
    = some (some [arrivalA], [arrivalA2]) := by
  decide

/-- C4 counterexample: after querying "A" (line "la") and then "B" (line
"lb") in one session, the snapshot cached for "B" still has the stale key
"la" in platformsByLine although its uniqueLines is exactly ["lb"]. -/
theorem C4_counterexample :
    (((runSession initState [("A", apiA), ("B", apiB)]).toOption.bind
      (fun s2 => mapLookup s2.stop_cache "B")).map
      (fun t => (mapContains t.unique_platforms "la",
                 decide ("la" ∈ t.unique_lines))))
    = some (true, false) := by
  decide

/-- C9 counterexample: on a zero-match search the code does not fail with a
NotFound-like error; when the dependent fetch against the empty identifier
succeeds, it emits and caches a snapshot built around the empty stop. -/
theorem C9_counterexample :
    (apiZ.searchStop "Zzzzz").map (fun r => r.matches) = some [] ∧
    processEnter apiZ { initState with input := "Zzzzz" } = Except.ok
      ⟨"", "Zzzzz", ttEmptyStop, [("Zzzzz", ttEmptyStop)]⟩ ∧
    ttEmptyStop.stop_point = some ⟨"", "", ""⟩ :=
  ⟨by decide, by decide, by decide⟩

/-- C9 amended: on zero matches the Resolver yields the empty StopPoint and
the aggregation proceeds against the empty identifier without surfacing a
NotFound: if the dependent arrivals fetch fails, the process aborts via the
unwrap panic (nothing cached); if it succeeds, a snapshot built around the
empty stop is emitted and cached. -/
theorem C9_amended (api : Api) (s : AppState) (resp : StopPointResponse)
    (hmiss : mapLookup s.stop_cache s.input = none)
    (hsr : api.searchStop s.input = some resp)
    (hm : resp.matches = []) :
    resolveStop resp = some ⟨"", "", ""⟩ ∧
    (api.getArrivals "" = none →
      processEnter api s = Except.error Panic.fetchFailed) ∧
    (api.getArrivals "" = some [] →
      ∃ s', processEnter api s = Except.ok s' ∧
        mapLookup s'.stop_cache s.input = some s'.this_StopTimetable ∧
        s'.this_StopTimetable.stop_point = some ⟨"", "", ""⟩ ∧
        s'.this_StopTimetable.arrivals = []) := by
  have hres : resolveStop resp = some ⟨"", "", ""⟩ := by
    simp [resolveStop, hm, StopPoint.default]
  refine ⟨hres, ?_, ?_⟩
  · intro hga
    simp [processEnter, hmiss, hsr, hres, hga]
  · intro hga
    refine ⟨{ input := "", this_station_name := s.input,
              this_StopTimetable :=
                { s.this_StopTimetable with
                  stop_point := some ⟨"", "", ""⟩,
                  arrivals := [], unique_lines := [] },
              stop_cache := mapInsert s.stop_cache s.input
                { s.this_StopTimetable with
                  stop_point := some ⟨"", "", ""⟩,
                  arrivals := [], unique_lines := [] } }, ?_, ?_, rfl, rfl⟩
    · simp [processEnter, hmiss, hsr, hres, hga, dedupFirst, processLines]
    · simp [mapLookup_insert]

/-- C9 witness: the amended behaviour evaluated against the zero-match API
whose arrivals fetch for "" succeeds with an empty list. -/
theorem C9_amended_witness :
    mapLookup (AppState.mk "Zzzzz" "" StopTimetable.default []).stop_cache
      "Zzzzz" = none ∧
    apiZ.searchStop "Zzzzz" = some ⟨"Zzzzz", 0, []⟩ ∧
    (resolveStop ⟨"Zzzzz", 0, []⟩ = some ⟨"", "", ""⟩ ∧
     (apiZ.getArrivals "" = none →
       processEnter apiZ ⟨"Zzzzz", "", StopTimetable.default, []⟩ =
         Except.error Panic.fetchFailed) ∧
     (apiZ.getArrivals "" = some [] →
       ∃ s', processEnter apiZ ⟨"Zzzzz", "", StopTimetable.default, []⟩ =
           Except.ok s' ∧
         mapLookup s'.stop_cache "Zzzzz" = some s'.this_StopTimetable ∧
         s'.this_StopTimetable.stop_point = some ⟨"", "", ""⟩ ∧
         s'.this_StopTimetable.arrivals = [])) :=
  ⟨by decide, by decide,
   C9_amended apiZ ⟨"Zzzzz", "", StopTimetable.default, []⟩ ⟨"Zzzzz", 0, []⟩
     (by decide) (by decide) (by decide)⟩

/-- C2: on a cache hit, the returned snapshot reuses the cached stopPoint,
uniqueLines, platformsByLine, liveMaps and stationNodes verbatim; only
arrivals is replaced by the fresh fetch keyed by the cached stopPoint.id, no
grouping or geometry is recomputed, and the cache itself is untouched. -/
theorem C2_hit_reuses_cached_fields (api : Api) (s : AppState)
    (cached : StopTimetable) (sp : StopPoint) (arr : List Arrival)
    (hhit : mapLookup s.stop_cache s.input = some cached)
    (hsp : cached.stop_point = some sp)
    (harr : api.getArrivals sp.id = some arr) :
    processEnter api s = Except.ok
      { input := "", this_station_name := s.input,
        this_StopTimetable := { cached with arrivals := arr },
        stop_cache := s.stop_cache } :=
  processEnter_hit_eq api s cached sp arr hhit hsp harr

/-- C2 witness: a concrete cache hit on "X" with changed upstream arrivals;
everything except arrivals is byte-identical to the cached snapshot. -/
theorem C2_hit_reuses_cached_fields_witness :
    mapLookup sHitX.stop_cache sHitX.input = some tt2X ∧
    tt2X.stop_point = some spX ∧
    api2.getArrivals spX.id = some [arrivalA2] ∧
    processEnter api2 sHitX = Except.ok
      { input := "", this_station_name := sHitX.input,
        this_StopTimetable := { tt2X with arrivals := [arrivalA2] },
        stop_cache := sHitX.stop_cache } :=
  ⟨by decide, by decide, by decide,
   C2_hit_reuses_cached_fields api2 sHitX tt2X spX [arrivalA2]
     (by decide) (by decide) (by decide)⟩

/-- C4 amended: on every successful cache-miss aggregation, uniqueLines is
exactly the set of lineIds of the snapshot's arrivals and the snapshot is
stored in the cache; the keys of platformsByLine and liveMaps are drawn from
uniqueLines only when the aggregation started from an empty grouping state
(as on the session's first query) — keys left over from previously queried
stations persist and may lie outside uniqueLines. -/
theorem C4_amended (api : Api) (s s' : AppState)
    (hmiss : mapLookup s.stop_cache s.input = none)
    (h : processEnter api s = Except.ok s') :
    (∀ l, l ∈ s'.this_StopTimetable.unique_lines ↔
        ∃ a ∈ s'.this_StopTimetable.arrivals, a.lineId = l) ∧
    mapLookup s'.stop_cache s.input = some s'.this_StopTimetable ∧
    (s.this_StopTimetable.unique_platforms = [] →
      ∀ k, mapContains s'.this_StopTimetable.unique_platforms k = true →
        k ∈ s'.this_StopTimetable.unique_lines) ∧
    (s.this_StopTimetable.live_maps = [] →
      ∀ k, mapContains s'.this_StopTimetable.live_maps k = true →
        k ∈ s'.this_StopTimetable.unique_lines) := by
  obtain ⟨resp, sp, arr, tt2, hsr, hres, harr, hpl, hs'⟩ :=
    processEnter_miss_ok api s s' hmiss h
  have hTT : s'.this_StopTimetable = tt2 := by rw [hs']
  have hca : s'.stop_cache = mapInsert s.stop_cache s.input tt2 := by rw [hs']
  have harr2 : tt2.arrivals = arr := (processLines_fields api sp _ _ _ hpl).1
  have hul : tt2.unique_lines = dedupFirst (arr.map (fun a => a.lineId)) :=
    (processLines_fields api sp _ _ _ hpl).2.1
  refine ⟨?_, ?_, ?_, ?_⟩
  · intro l
    rw [hTT, harr2, hul, mem_dedupFirst]
    simp only [List.mem_map]
  · rw [hTT, hca, mapLookup_insert, if_pos rfl]
  · intro hemp k hk
    rw [hTT] at hk
    rw [hTT, hul]
    rcases processLines_platform_keys api sp _ _ tt2 k hpl hk with hk1 | hk1
    · have hk2 : mapContains s.this_StopTimetable.unique_platforms k = true :=
        hk1
      rw [hemp] at hk2
      simp [mapContains, mapLookup] at hk2
    · exact hk1
  · intro hemp k hk
    rw [hTT] at hk
    rw [hTT, hul]
    rcases processLines_livemap_keys api sp _ _ tt2 k hpl hk with hk1 | hk1
    · have hk2 : mapContains s.this_StopTimetable.live_maps k = true := hk1
      rw [hemp] at hk2
      simp [mapContains, mapLookup] at hk2
    · exact hk1

/-- C4 amended witness: the first-query run of "X" against `api1`. -/
theorem C4_amended_witness :
    mapLookup sInX.stop_cache sInX.input = none ∧
    processEnter api1 sInX = Except.ok s1X ∧
    ((∀ l, l ∈ s1X.this_StopTimetable.unique_lines ↔
        ∃ a ∈ s1X.this_StopTimetable.arrivals, a.lineId = l) ∧
     mapLookup s1X.stop_cache sInX.input = some s1X.this_StopTimetable ∧
     (sInX.this_StopTimetable.unique_platforms = [] →
       ∀ k, mapContains s1X.this_StopTimetable.unique_platforms k = true →
         k ∈ s1X.this_StopTimetable.unique_lines) ∧
     (sInX.this_StopTimetable.live_maps = [] →
       ∀ k, mapContains s1X.this_StopTimetable.live_maps k = true →
         k ∈ s1X.this_StopTimetable.unique_lines)) :=
  ⟨by decide, by decide,
   C4_amended api1 sInX s1X (by decide) (by decide)⟩

/-- C1: on the cache-miss path, for every line in uniqueLines the entry
platformsByLine[line] is exactly the lexicographically sorted duplicate-free
list of the platform names of the arrivals whose lineId equals that line
(for any input ordering of arrivals), and the union of these lists over
uniqueLines is exactly the set of platform names in arrivals. -/
theorem C1_platform_grouping (api : Api) (s s' : AppState)
    (hmiss : mapLookup s.stop_cache s.input = none)
    (h : processEnter api s = Except.ok s') :
    (∀ line ∈ s'.this_StopTimetable.unique_lines,
      ∃ ps, mapLookup s'.this_StopTimetable.unique_platforms line = some ps ∧
        ps.Pairwise (· < ·) ∧
        (∀ p, p ∈ ps ↔ ∃ a ∈ s'.this_StopTimetable.arrivals,
            a.lineId = line ∧ a.platformName = p)) ∧
    (∀ p, (∃ line ∈ s'.this_StopTimetable.unique_lines, ∃ ps,
            mapLookup s'.this_StopTimetable.unique_platforms line = some ps ∧
            p ∈ ps) ↔
          ∃ a ∈ s'.this_StopTimetable.arrivals, a.platformName = p) := by
  obtain ⟨resp, sp, arr, tt2, hsr, hres, harr, hpl, hs'⟩ :=
    processEnter_miss_ok api s s' hmiss h
  have hTT : s'.this_StopTimetable = tt2 := by rw [hs']
  have harr2 : tt2.arrivals = arr := (processLines_fields api sp _ _ _ hpl).1
  have hul : tt2.unique_lines = dedupFirst (arr.map (fun a => a.lineId)) :=
    (processLines_fields api sp _ _ _ hpl).2.1
  have hlook : ∀ line ∈ dedupFirst (arr.map (fun a => a.lineId)),
      mapLookup tt2.unique_platforms line =
        some (platformsForLine arr line) :=
    fun line hl => processLines_platforms_mem api sp _ _ tt2 line hpl hl
  rw [hTT, harr2, hul]
  constructor
  · intro line hline
    exact ⟨platformsForLine arr line, hlook line hline,
      sorted_platformsForLine arr line,
      fun p => mem_platformsForLine arr line p⟩
  · intro p
    constructor
    · rintro ⟨line, hline, ps, hps, hp⟩
      have h2 := hlook line hline
      rw [hps] at h2
      have h3 : ps = platformsForLine arr line := Option.some.inj h2
      subst h3
      obtain ⟨a, ha, _, hpn⟩ := (mem_platformsForLine arr line p).mp hp
      exact ⟨a, ha, hpn⟩
    · rintro ⟨a, ha, hpn⟩
      refine ⟨a.lineId, (mem_dedupFirst _ _).mpr (List.mem_map_of_mem _ ha),
        platformsForLine arr a.lineId,
        hlook a.lineId ((mem_dedupFirst _ _).mpr (List.mem_map_of_mem _ ha)),
        (mem_platformsForLine arr a.lineId p).mpr ⟨a, ha, rfl, hpn⟩⟩

/-- C1 witness: the grouping property evaluated on the concrete "X" run. -/
theorem C1_platform_grouping_witness :
    mapLookup sInX.stop_cache sInX.input = none ∧
    processEnter api1 sInX = Except.ok s1X ∧
    ((∀ line ∈ s1X.this_StopTimetable.unique_lines,
      ∃ ps, mapLookup s1X.this_StopTimetable.unique_platforms line = some ps ∧
        ps.Pairwise (· < ·) ∧
        (∀ p, p ∈ ps ↔ ∃ a ∈ s1X.this_StopTimetable.arrivals,
            a.lineId = line ∧ a.platformName = p)) ∧
     (∀ p, (∃ line ∈ s1X.this_StopTimetable.unique_lines, ∃ ps,
            mapLookup s1X.this_StopTimetable.unique_platforms line = some ps ∧
            p ∈ ps) ↔
          ∃ a ∈ s1X.this_StopTimetable.arrivals, a.platformName = p)) :=
  ⟨by decide, by decide,
   C1_platform_grouping api1 sInX s1X (by decide) (by decide)⟩

/-- C6: per direction the Layout Projector yields one node per stop in input
order, the i-th node sits at x = 12.5 + 3.5*i with y = 50, width 2, height
10, a node carries the highlight colour exactly when its stop id equals the
resolved stop id, and stationNodes[line] holds exactly the two projected
direction lists whose lengths equal the LiveMap stop-sequence lengths. -/
theorem C6_station_node_geometry (api : Api) (sp : StopPoint)
    (tt : StopTimetable) (u : String) (res : RouteResponse)
    (r0 r1 : Route) (rs : List Route) (tt' : StopTimetable)
    (hroute : api.getRoute u = some res)
    (hr : res.orderedLineRoutes = r0 :: r1 :: rs)
    (h : stepLine api sp tt u = Except.ok tt') :
    (∃ lm, mapLookup tt'.live_maps u = some lm ∧
      mapLookup tt'.station_nodes u =
        some [project lm.stops_0 sp.id, project lm.stops_1 sp.id] ∧
      (project lm.stops_0 sp.id).length = lm.stops_0.length ∧
      (project lm.stops_1 sp.id).length = lm.stops_1.length) ∧
    (∀ (stops : List Station) (cur : String) (i : ℕ) (st : Station),
      stops[i]? = some st →
      (project stops cur)[i]? = some
        ⟨st.naptan_id, ⟨12.5 + 3.5 * (i : ℚ), 50, 2, 10,
          if st.naptan_id = cur then Color.LightGreen
          else Color.LightYellow⟩⟩) := by
  constructor
  · obtain ⟨res2, r0', r1', rs', hroute2, hr2, rfl⟩ :=
      (stepLine_ok_iff api sp tt u tt').mp h
    rw [hroute] at hroute2
    obtain rfl := Option.some.inj hroute2
    rw [hr] at hr2
    obtain ⟨h1, h2, h3⟩ : r0 = r0' ∧ r1 = r1' ∧ rs = rs' := by
      injection hr2 with ha hb
      injection hb with hb hc
      exact ⟨ha, hb, hc⟩
    subst h1
    subst h2
    subst h3
    exact ⟨⟨r0.naptanIds.map Station.mk, r1.naptanIds.map Station.mk, []⟩,
      by simp [mapLookup_insert],
      by simp [mapLookup_insert],
      project_length _ _, project_length _ _⟩
  · intro stops cur i st hst
    exact project_getElem stops cur i st hst

/-- C6 witness: the geometry evaluated on the concrete two-stop route of
line "l1". -/
theorem C6_station_node_geometry_witness :
    api1.getRoute "l1" = some routeRespL1 ∧
    routeRespL1.orderedLineRoutes = r0X :: r1X :: [] ∧
    stepLine api1 spX tt1X "l1" = Except.ok tt2X ∧
    ((∃ lm, mapLookup tt2X.live_maps "l1" = some lm ∧
      mapLookup tt2X.station_nodes "l1" =
        some [project lm.stops_0 spX.id, project lm.stops_1 spX.id] ∧
      (project lm.stops_0 spX.id).length = lm.stops_0.length ∧
      (project lm.stops_1 spX.id).length = lm.stops_1.length) ∧
    (∀ (stops : List Station) (cur : String) (i : ℕ) (st : Station),
      stops[i]? = some st →
      (project stops cur)[i]? = some
        ⟨st.naptan_id, ⟨12.5 + 3.5 * (i : ℚ), 50, 2, 10,
          if st.naptan_id = cur then Color.LightGreen
          else Color.LightYellow⟩⟩)) :=
  ⟨by decide, by decide, by decide,
   C6_station_node_geometry api1 spX tt1X "l1" routeRespL1 r0X r1X [] tt2X
     (by decide) (by decide) (by decide)⟩

/-- C8: the cache key is the exact submitted string — after any fully
successful session starting from the empty cache, a name is a cache hit
exactly when the identical string was submitted before; strings differing in
any character use distinct entries. -/
theorem C8_exact_string_keying (steps : List (String × Api)) (s' : AppState)
    (h : runSession initState steps = Except.ok s') (n : String) :
    mapContains s'.stop_cache n = true ↔ n ∈ steps.map Prod.fst := by
  have h1 := runSession_contains steps initState s' h n
  have h2 : mapContains initState.stop_cache n = false := rfl
  simp only [h2, Bool.false_eq_true, false_or] at h1
  exact h1

/-- C8 witness: a one-step session caching exactly the submitted name. -/
theorem C8_exact_string_keying_witness :
    runSession initState [("A", apiZ)] = Except.ok sErunZ ∧
    (mapContains sErunZ.stop_cache "A" = true ↔
      "A" ∈ ([("A", apiZ)].map Prod.fst)) :=
  ⟨by decide, C8_exact_string_keying [("A", apiZ)] sErunZ (by decide) "A"⟩

end TTFL
